import Mathlib

/-!
Shallow embedding of the HNG-1-STRING-ANALYSER repository (Python sources
`services.py`, `main.py`, `models.py`) in Lean 4, together with theorems
settling the frozen claims about its natural-language query interpreter,
its filter evaluator and its storage operations.

Python strings are modelled as Lean `String`s (lists of characters).  The
repository only ever matches against ASCII trigger phrases, ASCII regex
character classes (`[a-z]`, `[^a-zA-Z0-9]`, `\d`, `\s` on ASCII text) and
ASCII lowercasing, so `str.lower` is modelled by its exact behaviour on
the ASCII range (identity elsewhere).
-/

namespace StringAnalyser

/-- The 26 ASCII case pairs: Python's `str.lower` on the ASCII range maps
the first component of each pair to the second and fixes everything else. -/
def asciiCasePairs : List (Char × Char) :=
  [('A', 'a'), ('B', 'b'), ('C', 'c'), ('D', 'd'), ('E', 'e'), ('F', 'f'),
   ('G', 'g'), ('H', 'h'), ('I', 'i'), ('J', 'j'), ('K', 'k'), ('L', 'l'),
   ('M', 'm'), ('N', 'n'), ('O', 'o'), ('P', 'p'), ('Q', 'q'), ('R', 'r'),
   ('S', 's'), ('T', 't'), ('U', 'u'), ('V', 'v'), ('W', 'w'), ('X', 'x'),
   ('Y', 'y'), ('Z', 'z')]

/-- Lowercase one character, modelling Python `str.lower` on ASCII input. -/
def pyLowerChar (c : Char) : Char :=
  match asciiCasePairs.find? (fun p => p.1 == c) with
  | some p => p.2
  | none => c

/-- Model of Python `str.lower` (exact on ASCII text). -/
def pyLower (s : String) : String :=
  String.mk (s.data.map pyLowerChar)

/-- Python `\s` on ASCII text / `str.split()` separators:
space, tab, newline, vertical tab, form feed, carriage return. -/
def isPyWs (c : Char) : Bool :=
  c == ' ' || c == '\t' || c == '\n' || c == '\x0b' || c == '\x0c' || c == '\r'

/-- The regex class `\d` on ASCII text. -/
def isAsciiDigit (c : Char) : Bool :=
  '0' ≤ c && c ≤ '9'

/-- The regex class `[a-zA-Z0-9]` of `is_palindrome`'s normalisation. -/
def isAsciiAlnum (c : Char) : Bool :=
  ('a' ≤ c && c ≤ 'z') || ('A' ≤ c && c ≤ 'Z') || ('0' ≤ c && c ≤ '9')

/-- Substring containment on character lists: Python's `needle in hay`,
also SQL `LIKE concat percent needle percent` on a PostgreSQL backend
(both are literal, case-sensitive tests). -/
def listContains (hay needle : List Char) : Bool :=
  match hay with
  | [] => needle.isEmpty
  | _ :: rest => needle.isPrefixOf hay || listContains rest needle

/-- Python's `needle in hay` for strings. -/
def strContains (hay needle : String) : Bool :=
  listContains hay.data needle.data

/- ===== services.py : string analysis functions ===== -/

/-- `services.is_palindrome`: lowercase, drop every character outside
`[a-zA-Z0-9]`, compare with the reversal. -/
def is_palindrome (text : String) : Bool :=
  let cleaned := ((pyLower text).data.filter isAsciiAlnum)
  cleaned == cleaned.reverse

/-- `services.count_unique_characters`: `len(set(text))`. -/
def count_unique_characters (text : String) : Nat :=
  text.data.eraseDups.length

/-- `services.count_words`: `len(text.split())`, the number of maximal runs
of non-whitespace characters. -/
def count_words (text : String) : Nat :=
  (text.data.foldr
    (fun c (p : Nat × Bool) =>
      if isPyWs c then (p.1, false)
      else (if p.2 then p.1 else p.1 + 1, true))
    (0, false)).1

/-- `services.character_frequency`: `dict(Counter(text))`, here as an
association list keyed by the distinct characters of `text`. -/
def character_frequency (text : String) : List (Char × Nat) :=
  text.data.eraseDups.map (fun c => (c, text.data.count c))

/-- A row of the `strings` table (`models.StringAnalysisDB`).  Rows are
only ever produced by `analyze_string`, whose `length`, `unique_characters`
and `word_count` are Python `len`s, hence natural numbers. -/
structure StringAnalysisDB where
  id : String
  value : String
  length : Nat
  is_palindrome : Bool
  unique_characters : Nat
  word_count : Nat
  sha256_hash : String
  character_frequency_map : List (Char × Nat)
deriving DecidableEq, Repr

/-- `services.analyze_string`, parameterised by the SHA-256 digest function
(modelled as an argument: the claims under study never inspect digests). -/
def analyze_string (hash : String → String) (value : String) : StringAnalysisDB :=
  { id := hash value
    value := value
    length := value.length
    is_palindrome := is_palindrome value
    unique_characters := count_unique_characters value
    word_count := count_words value
    sha256_hash := hash value
    character_frequency_map := character_frequency value }

/- ===== storage operations ===== -/

/-- `services.get_string_by_value`: first stored row whose `value` column
equals `v`. -/
def get_string_by_value (store : List StringAnalysisDB) (v : String) :
    Option StringAnalysisDB :=
  store.find? (fun r => r.value == v)

/-- `main.create_string` (POST /strings): if a row with this value already
exists, answer 409 Conflict (modelled as `none`) and leave the store
untouched; otherwise analyse, append the new row and return it. -/
def create_string (hash : String → String) (store : List StringAnalysisDB)
    (v : String) : Option StringAnalysisDB × List StringAnalysisDB :=
  match get_string_by_value store v with
  | some _ => (none, store)
  | none =>
    let r := analyze_string hash v
    (some r, store ++ [r])

/-- `services.delete_string_by_value`: drop the first row with this value;
the Bool reports whether one was found. -/
def delete_string_by_value (store : List StringAnalysisDB) (v : String) :
    Bool × List StringAnalysisDB :=
  match get_string_by_value store v with
  | some r => (true, store.erase r)
  | none => (false, store)

/- ===== Filter evaluator ===== -/

/-- A FilterSet: the dictionary of optional filter parameters accepted by
`services.get_all_strings_with_filters` and produced by
`services.parse_natural_language_query`. -/
structure Filters where
  is_palindrome : Option Bool := none
  min_length : Option Int := none
  max_length : Option Int := none
  word_count : Option Int := none
  contains_character : Option String := none
deriving DecidableEq, Repr

/-- The empty FilterSet (the parser's unparseable-failure signal: `main.py`
answers 400 when the parsed dictionary is empty). -/
def emptyFilters : Filters := {}

/-- The conjunction of the five optional predicates that
`services.get_all_strings_with_filters` chains onto its query, in source
order. -/
def matchesFilters (f : Filters) (r : StringAnalysisDB) : Bool :=
  (match f.is_palindrome with
   | some b => r.is_palindrome == b
   | none => true) &&
  (match f.min_length with
   | some n => decide (n ≤ (r.length : Int))
   | none => true) &&
  (match f.max_length with
   | some n => decide ((r.length : Int) ≤ n)
   | none => true) &&
  (match f.word_count with
   | some n => decide ((r.word_count : Int) = n)
   | none => true) &&
  (match f.contains_character with
   | some s => strContains r.value s
   | none => true)

/-- `services.get_all_strings_with_filters`: the stored rows, in storage
order, that pass every present filter. -/
def get_all_strings_with_filters (store : List StringAnalysisDB)
    (f : Filters) : List StringAnalysisDB :=
  store.filter (fun r => matchesFilters f r)

/- ===== Natural language parsing (services.parse_natural_language_query) ===== -/

/-- Value of a run of decimal digits, as Python `int` reads it. -/
def digitsToNat (ds : List Char) : Nat :=
  ds.foldl (fun acc c => 10 * acc + (c.toNat - '0'.toNat)) 0

/-- `re.search` for a pattern `key(\d+)` where `key` is a literal: scan
positions left to right; at the first position where `key` is followed by
at least one digit, capture the maximal digit run. -/
def searchNumAfter (key : List Char) : List Char → Option Nat
  | [] => none
  | c :: rest =>
    (if key.isPrefixOf (c :: rest) then
      let ds := ((c :: rest).drop key.length).takeWhile isAsciiDigit
      if ds.isEmpty then none else some (digitsToNat ds)
    else none) <|> searchNumAfter key rest

/-- Match `\s+` at the head: requires one whitespace character, then
consumes the maximal whitespace run (every later atom of the pattern
starts with a non-whitespace character, so maximal munch is exact). -/
def wsPlus : List Char → Option (List Char)
  | [] => none
  | c :: rest => if isPyWs c then some (rest.dropWhile isPyWs) else none

/-- Match a literal followed by `\s+` at the head. -/
def litWs (lit : List Char) (l : List Char) : Option (List Char) :=
  if lit.isPrefixOf l then wsPlus (l.drop lit.length) else none

/-- Match the capturing group `([a-z])` at the head. -/
def matchClass : List Char → Option Char
  | [] => none
  | c :: _ => if 'a' ≤ c && c ≤ 'z' then some c else none

/-- Match `(?:letter\s+)?([a-z])` at the head, with regex backtracking:
try the optional group first, fall back to skipping it. -/
def matchLetterPart (l : List Char) : Option Char :=
  (litWs ['l', 'e', 't', 't', 'e', 'r'] l >>= matchClass) <|> matchClass l

/-- Match `(?:the\s+)?(?:letter\s+)?([a-z])` at the head. -/
def matchThePart (l : List Char) : Option Char :=
  (litWs ['t', 'h', 'e'] l >>= matchLetterPart) <|> matchLetterPart l

/-- Match the whole pattern
`contain(?:s|ing)?\s+(?:the\s+)?(?:letter\s+)?([a-z])` at the head:
the literal `contain`, then the alternatives of `(?:s|ing)?` in regex
order (s, ing, empty), each followed by the rest of the pattern. -/
def matchContainAt (l : List Char) : Option Char :=
  if ['c', 'o', 'n', 't', 'a', 'i', 'n'].isPrefixOf l then
    (litWs ['s'] (l.drop 7) >>= matchThePart) <|>
    (litWs ['i', 'n', 'g'] (l.drop 7) >>= matchThePart) <|>
    (wsPlus (l.drop 7) >>= matchThePart)
  else none

/-- `re.search` for the contains-char pattern: leftmost match wins. -/
def searchContains : List Char → Option Char
  | [] => none
  | c :: rest => matchContainAt (c :: rest) <|> searchContains rest

/-- `services.parse_natural_language_query`: lowercase the query, then run
the rule chain in source order — palindrome substrings, the word-count
if/elif, the two numeric regexes, the contains-char regex, the
first-vowel literal. -/
def parse_natural_language_query (query : String) : Filters :=
  let ql := pyLower query
  let f0 : Filters := {}
  let f1 :=
    if strContains ql "palindrome" || strContains ql "palindromic" then
      { f0 with is_palindrome := some true }
    else f0
  let f2 :=
    if strContains ql "single word" then { f1 with word_count := some 1 }
    else if strContains ql "two word" || strContains ql "2 word" then
      { f1 with word_count := some 2 }
    else f1
  let f3 :=
    match searchNumAfter ("longer than ".data) ql.data with
    | some n => { f2 with min_length := some ((n : Int) + 1) }
    | none => f2
  let f4 :=
    match searchNumAfter ("shorter than ".data) ql.data with
    | some n => { f3 with max_length := some ((n : Int) - 1) }
    | none => f3
  let f5 :=
    match searchContains ql.data with
    | some c => { f4 with contains_character := some (String.mk [c]) }
    | none => f4
  let f6 :=
    if strContains ql "first vowel" then { f5 with contains_character := some "a" }
    else f5
  f6

/- ===== Helper lemmas ===== -/

theorem pyLowerChar_idem (c : Char) : pyLowerChar (pyLowerChar c) = pyLowerChar c := by
  rcases h : asciiCasePairs.find? (fun p => p.1 == c) with _ | p
  · have h1 : pyLowerChar c = c := by unfold pyLowerChar; rw [h]
    rw [h1]; exact h1
  · have h1 : pyLowerChar c = p.2 := by unfold pyLowerChar; rw [h]
    rw [h1]
    have hp : p ∈ asciiCasePairs := List.mem_of_find?_eq_some h
    fin_cases hp <;> rfl

theorem pyLower_idem (s : String) : pyLower (pyLower s) = pyLower s := by
  show String.mk ((s.data.map pyLowerChar).map pyLowerChar) = String.mk (s.data.map pyLowerChar)
  congr 1
  induction s.data with
  | nil => rfl
  | cons c l ih => simp [ih, pyLowerChar_idem]

set_option maxHeartbeats 1000000 in
theorem parse_eq (q : String) :
    parse_natural_language_query q =
      { is_palindrome :=
          if strContains (pyLower q) "palindrome" || strContains (pyLower q) "palindromic"
          then some true else none
        word_count :=
          if strContains (pyLower q) "single word" then some 1
          else if strContains (pyLower q) "two word" || strContains (pyLower q) "2 word"
          then some 2 else none
        min_length :=
          (searchNumAfter ("longer than ".data) (pyLower q).data).map
            (fun n : Nat => (n : Int) + 1)
        max_length :=
          (searchNumAfter ("shorter than ".data) (pyLower q).data).map
            (fun n : Nat => (n : Int) - 1)
        contains_character :=
          if strContains (pyLower q) "first vowel" then some "a"
          else (searchContains (pyLower q).data).map (fun c => String.mk [c]) } := by
  simp only [parse_natural_language_query]
  rcases h1 : strContains (pyLower q) "palindrome" || strContains (pyLower q) "palindromic" with _ | _ <;>
  rcases h2 : strContains (pyLower q) "single word" with _ | _ <;>
  rcases h3 : strContains (pyLower q) "two word" || strContains (pyLower q) "2 word" with _ | _ <;>
  rcases h4 : searchNumAfter ("longer than ".data) (pyLower q).data with _ | n <;>
  rcases h5 : searchNumAfter ("shorter than ".data) (pyLower q).data with _ | m <;>
  rcases h6 : searchContains (pyLower q).data with _ | c <;>
  rcases h7 : strContains (pyLower q) "first vowel" with _ | _ <;>
  simp [h1, h2, h3, h4, h5, h6, h7]

theorem matchClass_bounds {l : List Char} {c : Char} (h : matchClass l = some c) :
    'a' ≤ c ∧ c ≤ 'z' := by
  cases l with
  | nil => exact absurd h (by simp [matchClass])
  | cons d rest =>
    simp only [matchClass] at h
    split at h
    · rename_i hcond
      obtain rfl : d = c := Option.some.inj h
      simpa only [Bool.and_eq_true, decide_eq_true_eq] using hcond
    · simp at h

theorem matchLetterPart_bounds {l : List Char} {c : Char}
    (h : matchLetterPart l = some c) : 'a' ≤ c ∧ c ≤ 'z' := by
  unfold matchLetterPart at h
  rcases ho : (litWs ['l', 'e', 't', 't', 'e', 'r'] l >>= matchClass) with _ | d
  · rw [ho, Option.none_orElse] at h
    exact matchClass_bounds h
  · rw [ho, Option.some_orElse] at h
    cases h
    obtain ⟨m, -, hm⟩ := Option.bind_eq_some.mp ho
    exact matchClass_bounds hm

theorem matchThePart_bounds {l : List Char} {c : Char}
    (h : matchThePart l = some c) : 'a' ≤ c ∧ c ≤ 'z' := by
  unfold matchThePart at h
  rcases ho : (litWs ['t', 'h', 'e'] l >>= matchLetterPart) with _ | d
  · rw [ho, Option.none_orElse] at h
    exact matchLetterPart_bounds h
  · rw [ho, Option.some_orElse] at h
    cases h
    obtain ⟨m, -, hm⟩ := Option.bind_eq_some.mp ho
    exact matchLetterPart_bounds hm

theorem matchContainAt_bounds {l : List Char} {c : Char}
    (h : matchContainAt l = some c) : 'a' ≤ c ∧ c ≤ 'z' := by
  unfold matchContainAt at h
  split at h
  · rcases h1 : (litWs ['s'] (l.drop 7) >>= matchThePart) with _ | d
    · rw [h1, Option.none_orElse] at h
      rcases h2 : (litWs ['i', 'n', 'g'] (l.drop 7) >>= matchThePart) with _ | e
      · rw [h2, Option.none_orElse] at h
        obtain ⟨m, -, hm⟩ := Option.bind_eq_some.mp h
        exact matchThePart_bounds hm
      · rw [h2, Option.some_orElse] at h
        cases h
        obtain ⟨m, -, hm⟩ := Option.bind_eq_some.mp h2
        exact matchThePart_bounds hm
    · rw [h1, Option.some_orElse] at h
      cases h
      obtain ⟨m, -, hm⟩ := Option.bind_eq_some.mp h1
      exact matchThePart_bounds hm
  · exact absurd h (by simp)

theorem searchContains_bounds : ∀ {l : List Char} {c : Char},
    searchContains l = some c → 'a' ≤ c ∧ c ≤ 'z' := by
  intro l
  induction l with
  | nil => intro c h; exact absurd h (by simp [searchContains])
  | cons d rest ih =>
    intro c h
    unfold searchContains at h
    rcases ho : matchContainAt (d :: rest) with _ | e
    · rw [ho, Option.none_orElse] at h
      exact ih h
    · rw [ho, Option.some_orElse] at h
      cases h
      exact matchContainAt_bounds ho

/-- The five single-key FilterSets obtained by splitting a FilterSet into
its present keys, in the evaluator's order. -/
def singleFilters (f : Filters) : List Filters :=
  (match f.is_palindrome with
   | some b => [{ is_palindrome := some b }]
   | none => []) ++
  (match f.min_length with
   | some n => [{ min_length := some n }]
   | none => []) ++
  (match f.max_length with
   | some n => [{ max_length := some n }]
   | none => []) ++
  (match f.word_count with
   | some n => [{ word_count := some n }]
   | none => []) ++
  (match f.contains_character with
   | some s => [{ contains_character := some s }]
   | none => [])

theorem matchesFilters_eq_all_singles (f : Filters) (r : StringAnalysisDB) :
    matchesFilters f r = (singleFilters f).all (fun g => matchesFilters g r) := by
  obtain ⟨p, mn, mx, w, cc⟩ := f
  rcases p <;> rcases mn <;> rcases mx <;> rcases w <;> rcases cc <;>
    simp [matchesFilters, singleFilters, Bool.and_assoc]

theorem pyLowerChar_eq_self {c : Char} (h : ∀ p ∈ asciiCasePairs, p.1 ≠ c) :
    pyLowerChar c = c := by
  unfold pyLowerChar
  rw [List.find?_eq_none.mpr (fun p hp => by simp [h p hp])]

theorem pyLowerChar_digit {c : Char} (h : isAsciiDigit c = true) :
    pyLowerChar c = c := by
  apply pyLowerChar_eq_self
  intro p hp
  simp only [isAsciiDigit, Bool.and_eq_true, decide_eq_true_eq] at h
  fin_cases hp <;> (rintro rfl; revert h; decide)

theorem map_pyLowerChar_digits {ds : List Char}
    (h : ∀ c ∈ ds, isAsciiDigit c = true) : ds.map pyLowerChar = ds := by
  induction ds with
  | nil => rfl
  | cons c l ih =>
    rw [List.map_cons, pyLowerChar_digit (h c (by simp)),
      ih (fun x hx => h x (by simp [hx]))]

theorem searchNumAfter_append (kc : Char) (kr ds : List Char)
    (h1 : ds ≠ []) (h2 : ∀ c ∈ ds, isAsciiDigit c = true) :
    searchNumAfter (kc :: kr) ((kc :: kr) ++ ds) = some (digitsToNat ds) := by
  have hpre : (kc :: kr).isPrefixOf (kc :: (kr ++ ds)) = true :=
    List.isPrefixOf_iff_prefix.mpr (List.prefix_append _ _)
  have hdrop : (kc :: (kr ++ ds)).drop (kc :: kr).length = ds := List.drop_left _ _
  have htake : ds.takeWhile isAsciiDigit = ds := List.takeWhile_eq_self_iff.mpr h2
  have hne : ds.isEmpty = false := by
    cases ds with
    | nil => exact absurd rfl h1
    | cons a l => rfl
  rw [List.cons_append]
  unfold searchNumAfter
  simp [hpre, hdrop, htake, hne]

/- ===== Claim theorems ===== -/

/-- A sample stored row used in concrete instances: the analysis of the
string "fizz" (whose value contains a lowercase z and no uppercase Z). -/
def fizzRecord : StringAnalysisDB := analyze_string (fun s => s) "fizz"

/-- The parser's normalisation step, stated on its own: lowercase, then
keep only `[a-zA-Z0-9]` characters. -/
def palindrome_normalized (text : String) : List Char :=
  (pyLower text).data.filter isAsciiAlnum

/-- C1: the interpreter maps the five literal example queries of the spec
to exactly the stated FilterSets; the gibberish query yields the empty
FilterSet, which is the unparseable-failure signal (`main.py` turns the
empty dictionary into a 400 response). -/
theorem interpret_literal_examples :
    parse_natural_language_query "all single word palindromic strings" =
      { is_palindrome := some true, word_count := some 1 } ∧
    parse_natural_language_query "strings longer than 10 characters" =
      { min_length := some 11 } ∧
    parse_natural_language_query "strings shorter than 5 characters" =
      { max_length := some 4 } ∧
    parse_natural_language_query "strings containing the letter z" =
      { contains_character := some "z" } ∧
    parse_natural_language_query "gibberish with no recognized terms" =
      emptyFilters := by
  refine ⟨by decide, by decide, by decide, by decide, by decide⟩

/-- C2 counterexample: "single word two word" contains both word-count
triggers, yet the parsed FilterSet has word_count = 1, not 2: the two-word
branch is an elif, evaluated only when "single word" is absent. -/
theorem single_and_two_word_counterexample :
    strContains (pyLower "single word two word") "single word" = true ∧
    strContains (pyLower "single word two word") "two word" = true ∧
    (parse_natural_language_query "single word two word").word_count = some 1 ∧
    (parse_natural_language_query "single word two word").word_count ≠ some 2 := by
  refine ⟨by decide, by decide, by decide, by decide⟩

/-- C2 amended: whenever the lowercased query contains "single word", the
single-word rule wins regardless of any "two word"/"2 word" trigger, and
the resulting word_count is 1. -/
theorem single_word_wins (q : String)
    (h : strContains (pyLower q) "single word" = true) :
    (parse_natural_language_query q).word_count = some 1 := by
  rw [parse_eq]
  simp [h]

/-- Witness for `single_word_wins` at a concrete query. -/
theorem single_word_wins_witness :
    (parse_natural_language_query "single word two word").word_count = some 1 :=
  single_word_wins "single word two word" (by decide)

/-- C5: the empty FilterSet keeps every record, in storage order. -/
theorem empty_filters_matches_all (store : List StringAnalysisDB) :
    get_all_strings_with_filters store emptyFilters = store := by
  simp [get_all_strings_with_filters, matchesFilters, emptyFilters]

/-- C7: the palindrome check normalises (lowercases, strips characters
outside `[a-zA-Z0-9]`) and compares with the reversal; it accepts
"A man a plan a canal Panama" and rejects "hello". -/
theorem palindrome_normalisation :
    (∀ s, is_palindrome s =
      (palindrome_normalized s == (palindrome_normalized s).reverse)) ∧
    is_palindrome "A man a plan a canal Panama" = true ∧
    is_palindrome "hello" = false := by
  refine ⟨fun s => rfl, by decide, by decide⟩

theorem parse_congr_lower {q1 q2 : String} (h : pyLower q1 = pyLower q2) :
    parse_natural_language_query q1 = parse_natural_language_query q2 := by
  rw [parse_eq, parse_eq, h]

/-- C8: the interpreter is case-insensitive: parsing the lowercased query
gives the same FilterSet, and queries with equal lowercasings (in
particular, queries differing only in letter case) parse identically. -/
theorem interpret_case_insensitive (q q1 q2 : String)
    (h : pyLower q1 = pyLower q2) :
    parse_natural_language_query (pyLower q) = parse_natural_language_query q ∧
    parse_natural_language_query q1 = parse_natural_language_query q2 :=
  ⟨parse_congr_lower (pyLower_idem q), parse_congr_lower h⟩

/-- Witness for `interpret_case_insensitive` at concrete queries differing
only in letter case. -/
theorem interpret_case_insensitive_witness :
    parse_natural_language_query (pyLower "Single Word") =
      parse_natural_language_query "Single Word" ∧
    parse_natural_language_query "SINGLE word PALINDROME" =
      parse_natural_language_query "single WORD palindrome" :=
  interpret_case_insensitive "Single Word" "SINGLE word PALINDROME"
    "single WORD palindrome" (by decide)

/-- C9: creating a string whose value is already stored is rejected with
the conflict signal and leaves the store exactly as it was: the existing
row is not overwritten.  Moreover `create_string` never modifies stored
rows on any input: it either leaves the store untouched or appends the
analysis of the new value (and no update operation exists at all). -/
theorem create_rejects_duplicates (hash : String → String)
    (store store2 : List StringAnalysisDB) (v v2 : String)
    (r : StringAnalysisDB) (hr : r ∈ store) (hv : r.value = v) :
    create_string hash store v = (none, store) ∧
    ((create_string hash store2 v2).2 = store2 ∨
      (create_string hash store2 v2).2 = store2 ++ [analyze_string hash v2]) := by
  constructor
  · unfold create_string get_string_by_value
    rcases hfind : store.find? (fun x => x.value == v) with _ | s
    · exact absurd (by simp [hv]) (List.find?_eq_none.mp hfind r hr)
    · rw [hfind]
  · unfold create_string get_string_by_value
    rcases hfind : store2.find? (fun x => x.value == v2) with _ | s
    · right; rw [hfind]
    · left; rw [hfind]

/-- Witness for `create_rejects_duplicates`: re-creating "fizz" on a store
that already holds its analysis fails and changes nothing. -/
theorem create_rejects_duplicates_witness :
    create_string (fun s => s) [fizzRecord] "fizz" = (none, [fizzRecord]) ∧
    ((create_string (fun s => s) [] "buzz").2 = [] ∨
      (create_string (fun s => s) [] "buzz").2 =
        [] ++ [analyze_string (fun s => s) "buzz"]) :=
  create_rejects_duplicates (fun s => s) [fizzRecord] [] "fizz" "buzz"
    fizzRecord (by simp) (by decide)

/-- C3: a record passes the evaluator exactly when it satisfies every
predicate whose filter key is present (equality on is_palindrome, the
inclusive length bounds, exact word_count, literal substring containment
for contains_character); and the substring test is case-sensitive: "Z"
does not match the record of "fizz", though "z" occurs in it. -/
theorem filter_predicate_semantics (f : Filters) (r : StringAnalysisDB) :
    (matchesFilters f r = true ↔
      (f.is_palindrome.all (fun b => r.is_palindrome == b) = true ∧
       f.min_length.all (fun n => decide (n ≤ (r.length : Int))) = true ∧
       f.max_length.all (fun n => decide ((r.length : Int) ≤ n)) = true ∧
       f.word_count.all (fun n => decide ((r.word_count : Int) = n)) = true ∧
       f.contains_character.all (fun s => strContains r.value s) = true)) ∧
    matchesFilters { contains_character := some "Z" } fizzRecord = false ∧
    strContains fizzRecord.value "z" = true := by
  refine ⟨?_, by decide, by decide⟩
  obtain ⟨p, mn, mx, w, cc⟩ := f
  rcases p <;> rcases mn <;> rcases mx <;> rcases w <;> rcases cc <;>
    simp [matchesFilters, and_assoc]

/-- C4: with at least two keys present, a record is in the evaluator's
result exactly when it is in the result of every single-key FilterSet run
independently over the same records (the result set is the intersection
of the single-filter result sets). -/
theorem and_semantics_intersection (store : List StringAnalysisDB)
    (f : Filters) (r : StringAnalysisDB) (h : 2 ≤ (singleFilters f).length) :
    (r ∈ get_all_strings_with_filters store f ↔
      ∀ g ∈ singleFilters f, r ∈ get_all_strings_with_filters store g) := by
  obtain ⟨g0, rest, hg⟩ : ∃ g0 rest, singleFilters f = g0 :: rest := by
    rcases hs : singleFilters f with _ | ⟨a, b⟩
    · exfalso; rw [hs, List.length_nil] at h; omega
    · exact ⟨a, b, rfl⟩
  have key : ∀ x, matchesFilters f x = true ↔
      ∀ g ∈ singleFilters f, matchesFilters g x = true := by
    intro x
    rw [matchesFilters_eq_all_singles]
    exact List.all_eq_true
  simp only [get_all_strings_with_filters, List.mem_filter]
  constructor
  · rintro ⟨hmem, hall⟩ g hgmem
    exact ⟨hmem, (key r).mp hall g hgmem⟩
  · intro hall
    exact ⟨(hall g0 (hg ▸ List.mem_cons_self g0 rest)).1,
      (key r).mpr (fun g hgmem => (hall g hgmem).2)⟩

/-- Witness for `and_semantics_intersection` on a concrete two-key
FilterSet, store and record. -/
theorem and_semantics_intersection_witness :
    fizzRecord ∈ get_all_strings_with_filters [fizzRecord]
        { min_length := some 1, max_length := some 10 } ↔
      ∀ g ∈ singleFilters { min_length := some 1, max_length := some 10 },
        fizzRecord ∈ get_all_strings_with_filters [fizzRecord] g :=
  and_semantics_intersection [fizzRecord]
    { min_length := some 1, max_length := some 10 } fizzRecord (by decide)

/-- C6: `longer than N` yields min_length = N + 1 and `shorter than N`
yields max_length = N - 1 for any digit literal N; at the boundary,
`longer than 0` gives min_length = 1 and `shorter than 0` gives
max_length = -1, which is accepted and matches zero records, a record's
length being a count, hence at least 0. -/
theorem numeric_extraction_boundaries (ds : List Char)
    (store : List StringAnalysisDB) (h1 : ds ≠ [])
    (h2 : ∀ c ∈ ds, isAsciiDigit c = true) :
    (parse_natural_language_query ("longer than " ++ String.mk ds)).min_length =
      some ((digitsToNat ds : Int) + 1) ∧
    (parse_natural_language_query ("shorter than " ++ String.mk ds)).max_length =
      some ((digitsToNat ds : Int) - 1) ∧
    (parse_natural_language_query "longer than 0").min_length = some 1 ∧
    (parse_natural_language_query "shorter than 0").max_length = some (-1) ∧
    get_all_strings_with_filters store { max_length := some (-1) } = [] := by
  have hlow : ∀ pre : String, pre.data.map pyLowerChar = pre.data →
      pyLower (pre ++ String.mk ds) = pre ++ String.mk ds := by
    intro pre hp
    show String.mk ((pre ++ String.mk ds).data.map pyLowerChar) = pre ++ String.mk ds
    rw [String.data_append, List.map_append, hp, map_pyLowerChar_digits h2]
    rfl
  refine ⟨?_, ?_, by decide, by decide, ?_⟩
  · rw [parse_eq]
    dsimp only
    rw [hlow "longer than " (by decide), String.data_append,
      show ("longer than ".data) = 'l' :: "onger than ".data from rfl,
      show (String.mk ds).data = ds from rfl,
      searchNumAfter_append 'l' ("onger than ".data) ds h1 h2]
    rfl
  · rw [parse_eq]
    dsimp only
    rw [hlow "shorter than " (by decide), String.data_append,
      show ("shorter than ".data) = 's' :: "horter than ".data from rfl,
      show (String.mk ds).data = ds from rfl,
      searchNumAfter_append 's' ("horter than ".data) ds h1 h2]
    rfl
  · simp only [get_all_strings_with_filters, List.filter_eq_nil_iff]
    intro r hr h
    simp only [matchesFilters, Bool.true_and, Bool.and_eq_true,
      decide_eq_true_eq] at h
    omega

/-- Witness for `numeric_extraction_boundaries` at N = 42 over a
one-record store. -/
theorem numeric_extraction_boundaries_witness :
    (parse_natural_language_query ("longer than " ++ String.mk ['4', '2'])).min_length =
      some ((digitsToNat ['4', '2'] : Int) + 1) ∧
    (parse_natural_language_query ("shorter than " ++ String.mk ['4', '2'])).max_length =
      some ((digitsToNat ['4', '2'] : Int) - 1) ∧
    (parse_natural_language_query "longer than 0").min_length = some 1 ∧
    (parse_natural_language_query "shorter than 0").max_length = some (-1) ∧
    get_all_strings_with_filters [fizzRecord] { max_length := some (-1) } = [] :=
  numeric_extraction_boundaries ['4', '2'] [fizzRecord] (by decide) (by decide)

/-- C10: every FilterSet the interpreter produces keeps the invariant:
its keys lie among the five recognised filter names (the `Filters` record
has exactly those five fields); is_palindrome, when present, is true;
word_count, when present, is 1 or 2; min_length, when present, is at
least 1; max_length, when present, is at least -1; and
contains_character, when present, is a one-character string whose
character is a lowercase letter a-z. -/
theorem interpret_invariant (q : String) :
    (parse_natural_language_query q).is_palindrome.all (fun b => b == true) = true ∧
    (parse_natural_language_query q).word_count.all
      (fun n => n == 1 || n == 2) = true ∧
    (parse_natural_language_query q).min_length.all
      (fun n => decide (1 ≤ n)) = true ∧
    (parse_natural_language_query q).max_length.all
      (fun n => decide (-1 ≤ n)) = true ∧
    (parse_natural_language_query q).contains_character.all
      (fun s => (s.length == 1) &&
        s.data.all (fun c => decide ('a' ≤ c) && decide (c ≤ 'z'))) = true := by
  rw [parse_eq]
  refine ⟨?_, ?_, ?_, ?_, ?_⟩ <;> dsimp only
  · split <;> rfl
  · split
    · rfl
    · split <;> rfl
  · rcases h : searchNumAfter ("longer than ".data) (pyLower q).data with _ | n
    · rfl
    · simp only [Option.map_some', Option.all_some, decide_eq_true_eq]
      omega
  · rcases h : searchNumAfter ("shorter than ".data) (pyLower q).data with _ | n
    · rfl
    · simp only [Option.map_some', Option.all_some, decide_eq_true_eq]
      omega
  · split
    · rfl
    · rcases h : searchContains (pyLower q).data with _ | c
      · rfl
      · obtain ⟨hc1, hc2⟩ := searchContains_bounds h
        simp only [Option.map_some', Option.all_some, Bool.and_eq_true,
          beq_iff_eq, List.all_cons, List.all_nil, decide_eq_true_eq]
        exact ⟨rfl, ⟨hc1, hc2⟩, trivial⟩

end StringAnalyser
